import Mathlib

set_option maxRecDepth 10000

/-!
Shallow embedding of the real-time message-processing and connection-fanout
subsystem of the computer-use backend
(`app/core/websocket_manager.py`, `app/core/agent_service.py`,
`app/api/endpoints/messages.py`).

Conventions of the embedding:
* A WebSocket connection object is abstracted as a natural number (`Conn`);
  identity is all that matters to the registry.
* The Python `Dict[str, List[WebSocket]]` is an association list with the
  same first-match lookup, in-place update and deletion behaviour;
  `dictSet` on an absent key appends at the end, as Python dict insertion
  does.
* A send failure of `await connection.send_text(...)` is abstracted by a
  predicate `fails : Conn → Bool` fixed for the duration of one fanout call.
* The SQLAlchemy store is a `Store`: the set of session ids plus the list of
  `Msg` rows in timestamp order (rows are only ever appended with
  `datetime.utcnow()` timestamps, so insertion order is timestamp order).
* Fallible effects (`raise` in Python) are `Except String`.
-/

namespace ComputerUse

/-- Abstract identity of a WebSocket connection object. -/
abbrev Conn := Nat

/-- The Python `Dict[str, List[WebSocket]]` of `WebSocketManager`. -/
abbrev Registry := List (String × List Conn)

/-- First-match lookup, like indexing a Python dict (with unique keys the
match is the entry). -/
def dictGet (d : Registry) (k : String) : Option (List Conn) :=
  (d.find? (fun e => e.1 == k)).map (fun e => e.2)

/-- `d[k] = v`: replace the first entry for `k`, or append a new entry. -/
def dictSet : Registry → String → List Conn → Registry
  | [], k, v => [(k, v)]
  | e :: es, k, v => if e.1 == k then (k, v) :: es else e :: dictSet es k v

/-- `del d[k]`: remove the first entry for `k`. -/
def dictDel : Registry → String → Registry
  | [], _ => []
  | e :: es, k => if e.1 == k then es else e :: dictDel es k

/-- The keys of the registry are pairwise distinct — the invariant every
Python dict satisfies. -/
def NodupKeys (d : Registry) : Prop := (d.map Prod.fst).Nodup

instance : DecidablePred NodupKeys := fun d =>
  inferInstanceAs (Decidable (d.map Prod.fst).Nodup)

/-- `WebSocketManager`: its only state is `active_connections`. -/
structure WSManager where
  active_connections : Registry
deriving DecidableEq, Repr

/-- The list of connections currently attached to `sid` (empty when the key
is absent). -/
def conns (m : WSManager) (sid : String) : List Conn :=
  (dictGet m.active_connections sid).getD []

/-- `WebSocketManager.connect` (after the transport-level `accept`): ensure
the key exists, then `append` the connection. -/
def connect (m : WSManager) (ws : Conn) (sid : String) : WSManager :=
  let cur := (dictGet m.active_connections sid).getD []
  ⟨dictSet m.active_connections sid (cur ++ [ws])⟩

/-- `WebSocketManager.disconnect`: `list.remove` (first occurrence; a
`ValueError` on a non-member is caught and leaves the state unchanged);
afterwards an empty list causes deletion of the key. -/
def disconnect (m : WSManager) (ws : Conn) (sid : String) : WSManager :=
  match dictGet m.active_connections sid with
  | none => m
  | some l =>
    if ws ∈ l then
      let l2 := l.erase ws
      if l2.isEmpty then ⟨dictDel m.active_connections sid⟩
      else ⟨dictSet m.active_connections sid l2⟩
    else m

/-- `WebSocketManager.send_message`: missing key is a silent no-op; each
attached connection is attempted in order, failures are collected and the
failing connections are disconnected after the loop.  Returns the new state
together with the connections whose send succeeded (the ones the event was
delivered to). -/
def send_message (m : WSManager) (sid : String) (fails : Conn → Bool) :
    WSManager × List Conn :=
  match dictGet m.active_connections sid with
  | none => (m, [])
  | some l =>
    let delivered := l.filter (fun c => !fails c)
    let disconnected := l.filter fails
    (disconnected.foldl (fun acc c => disconnect acc c sid) m, delivered)

/-! ## Fallback responder (`ComputerUseAgentService._generate_fallback_response`) -/

/-- `leadsWith pat l`: `pat` occurs at the head of `l` (list-of-characters
version of string prefix test). -/
def leadsWith : List Char → List Char → Bool
  | [], _ => true
  | _ :: _, [] => false
  | a :: as, b :: bs => a == b && leadsWith as bs

/-- `pat` occurs somewhere in `l`. -/
def hasSubList (pat : List Char) : List Char → Bool
  | [] => leadsWith pat []
  | l@(_ :: rest) => leadsWith pat l || hasSubList pat rest

/-- Python's `pat in s` substring test. -/
def hasSub (s pat : String) : Bool := hasSubList pat.data s.data

/-- Python's `str.lower()` (ASCII case folding, which is all the source's
keywords need). -/
def lowerStr (s : String) : String := ⟨s.data.map Char.toLower⟩

/-- The Dubai-specific canned weather response. -/
def dubaiWeatherText : String :=
  "I'd be happy to help you find weather information for Dubai! \n\nTo get the current weather in Dubai, I would typically:\n1. Search for a reliable weather service\n2. Look up current conditions including temperature, humidity, and forecast\n3. Provide you with detailed weather information\n\nSince I'm currently using a fallback system, I can't access real-time weather data, but Dubai generally has a hot desert climate with very hot summers and mild winters. The best time to visit is typically between November and March when temperatures are more comfortable.\n\nWould you like me to help you plan activities based on Dubai's typical weather patterns?"

/-- The generic weather canned response (echoes the input). -/
def weatherOtherText (user_message : String) : String :=
  "I'd be happy to help you find weather information for '" ++ user_message ++ "'! I would typically search for current weather conditions, forecasts, and provide you with detailed information including temperature, humidity, wind conditions, and any weather alerts."

/-- The search-category canned response (echoes the input). -/
def searchText (user_message : String) : String :=
  "I'd be happy to help you search for information about '" ++ user_message ++ "'! I would typically use web search tools to find the most relevant and up-to-date information, then provide you with a comprehensive summary of the results."

/-- The help-category canned response (the bullet characters are the exact
bytes of the source file). -/
def helpText : String :=
  "I'm here to help! I can assist you with various tasks including:\n\nâ€¢ Searching for information on the web\nâ€¢ Answering questions and providing explanations\nâ€¢ Helping with research and analysis\nâ€¢ Providing recommendations and advice\nâ€¢ Assisting with planning and organization\n\nWhat specific task would you like help with? I'm ready to assist you with whatever you need!"

/-- The greeting-category canned response. -/
def helloText : String :=
  "Hello! I'm your AI assistant, ready to help you with various tasks. I can search for information, answer questions, provide explanations, and assist with many other tasks.\n\nWhat would you like to work on today? I'm here to help make your tasks easier and more efficient!"

/-- The question-category canned response (echoes the input). -/
def questionText (user_message : String) : String :=
  "That's a great question about '" ++ user_message ++ "'! I would typically search for the most accurate and up-to-date information to provide you with a comprehensive answer. I can help you find detailed explanations, relevant resources, and practical information to address your question."

/-- The generic templated acknowledgment (echoes the input). -/
def genericText (user_message : String) : String :=
  "I understand you're asking about '" ++ user_message ++ "'. I would typically search for relevant information and provide you with a detailed, helpful response. I'm designed to assist with various tasks including research, analysis, and providing information on a wide range of topics."

/-- The keyword classification chain of
`_generate_fallback_response` (the `if`/`elif` ladder on
`user_message.lower()`; the `"?"` test is on the original message, exactly
as in the source). -/
def fallbackResponse (user_message : String) : String :=
  let user_message_lower := lowerStr user_message
  if hasSub user_message_lower "weather" then
    if hasSub user_message_lower "dubai" then dubaiWeatherText
    else weatherOtherText user_message
  else if hasSub user_message_lower "search" then searchText user_message
  else if hasSub user_message_lower "help" then helpText
  else if hasSub user_message_lower "hello" || hasSub user_message_lower "hi" then helloText
  else if hasSub user_message "?" then questionText user_message
  else genericText user_message

/-- Accumulating splitter behind `pySplit`: `cur` holds the reversed
characters of the word in progress. -/
def splitWsAux : List Char → List Char → List String
  | cur, [] => if cur.isEmpty then [] else [String.mk cur.reverse]
  | cur, c :: cs =>
    if c.isWhitespace then
      if cur.isEmpty then splitWsAux [] cs
      else String.mk cur.reverse :: splitWsAux [] cs
    else splitWsAux (c :: cur) cs

/-- Python's `str.split()`: split on whitespace runs, dropping empty
pieces. -/
def pySplit (s : String) : List String := splitWsAux [] s.data

/-! ## Store, envelopes and traces -/

/-- Author role of a stored message row (`MessageRole`, a `str` enum). -/
inductive MessageRole
  | user
  | assistant
  | system
deriving DecidableEq, Repr

/-- String value of the role enum. -/
def roleStr : MessageRole → String
  | .user => "user"
  | .assistant => "assistant"
  | .system => "system"

/-- One row of the `messages` table.  The timestamp is represented by the
row's position in `Store.messages` (rows are only appended, with
`datetime.utcnow()`, so insertion order is timestamp order). -/
structure Msg where
  id : Nat
  session_id : String
  role : MessageRole
  content : String
deriving DecidableEq, Repr

/-- The relational store: the existing session ids plus the message rows in
timestamp order. -/
structure Store where
  sessions : List String
  messages : List Msg
deriving DecidableEq, Repr

/-- The WebSocket envelopes produced by this subsystem: `AgentProgressMessage`
(`type = "agent_progress"`), `AgentResponseMessage` (`type = "agent_response"`)
and the raw `{type: "error"}` envelope broadcast by the background task in
`messages.py`. -/
inductive Event
  | progress (message : String) (step : String)
  | response (content : String) (message_id : Nat)
  | errorEnvelope (message : String)
deriving DecidableEq, Repr

/-- The wire `type` field of an envelope. -/
def Event.wireType : Event → String
  | .progress _ _ => "agent_progress"
  | .response _ _ => "agent_response"
  | .errorEnvelope _ => "error"

/-- One observable step of a submission: a committed store write or an
envelope handed to the progress sink. -/
inductive Op
  | insertTurn (m : Msg)
  | setContent (id : Nat) (content : String)
  | emit (e : Event)
deriving DecidableEq, Repr

/-- Effect of one committed write on the store (emissions leave it alone). -/
def applyOp (s : Store) : Op → Store
  | .insertTurn m => { s with messages := s.messages ++ [m] }
  | .setContent i c =>
      { s with
        messages := s.messages.map (fun m => if m.id == i then { m with content := c } else m) }
  | .emit _ => s

/-- The store reached after a trace. -/
def applyOps (s : Store) (ops : List Op) : Store := ops.foldl applyOp s

/-- Read a turn back from the store by id. -/
def findTurn (s : Store) (i : Nat) : Option Msg :=
  s.messages.find? (fun m => m.id == i)

/-- The `websocket_callback` parameter: consumes one envelope, may raise. -/
abbrev Callback := Event → Except String Unit

/-- `if websocket_callback: await websocket_callback(e)` — outcome plus the
envelopes handed to the sink. -/
def emitOpt (cb : Option Callback) (e : Event) : Except String Unit × List Event :=
  match cb with
  | none => (Except.ok (), [])
  | some f => (f e, [e])

/-- The callback never raises (true of the deployed callback, whose body is
the never-raising registry fanout). -/
def CbOk (cb : Option Callback) : Prop := ∀ e, (emitOpt cb e).1 = Except.ok ()

/-! ## Generation: fallback variant, primary variant, selection -/

/-- The chunking of the fallback's streaming loop: `range(0, len(words), 3)`
with `" ".join(words[i:i+3])`. -/
def chunkWords : List String → List String
  | [] => []
  | [w1] => [" ".intercalate [w1]]
  | [w1, w2] => [" ".intercalate [w1, w2]]
  | w1 :: w2 :: w3 :: rest => " ".intercalate [w1, w2, w3] :: chunkWords rest

/-- Emission of the prepared chunks, each with a trailing space and step
`"streaming"`. -/
def emitChunks (cb : Option Callback) : List String → Except String Unit × List Event
  | [] => (Except.ok (), [])
  | c :: cs =>
    match emitOpt cb (Event.progress (c ++ " ") "streaming") with
    | (Except.error e, es) => (Except.error e, es)
    | (Except.ok (), es) =>
      let rest := emitChunks cb cs
      (rest.1, es ++ rest.2)

/-- The fallback's streaming loop: three words at a time, each chunk sent
with a trailing space and step `"streaming"`. -/
def streamChunks (cb : Option Callback) (ws : List String) :
    Except String Unit × List Event :=
  emitChunks cb (chunkWords ws)

/-- `_generate_fallback_response`: fallback progress notice, deterministic
classification, then simulated streaming (the `asyncio.sleep` delays have no
observable effect in this model beyond event order). -/
def fallbackRun (user_message : String) (cb : Option Callback) :
    Except String String × List Event :=
  match emitOpt cb (Event.progress "Using fallback response system..." "fallback") with
  | (Except.error e, es) => (Except.error e, es)
  | (Except.ok (), es) =>
    let response := fallbackResponse user_message
    match streamChunks cb (pySplit response) with
    | (Except.error e, es2) => (Except.error e, es ++ es2)
    | (Except.ok (), es2) => (Except.ok response, es ++ es2)

/-- One `{role, content}` entry handed to the provider client. -/
structure ChatMsg where
  role : String
  content : String
deriving DecidableEq, Repr

/-- `_get_conversation_history`: all turns of the session, oldest first, as
role/content pairs. -/
def historyFor (s : Store) (sid : String) : List ChatMsg :=
  (s.messages.filter (fun m => m.session_id == sid)).map
    (fun m => ⟨roleStr m.role, m.content⟩)

/-- The hard-coded system prompt of `_call_claude_api`. -/
def systemPromptText : String :=
  "You are a helpful AI assistant with access to computer tools. You can help users with various tasks including:\n\n1. Searching for information\n2. Analyzing data\n3. Answering questions\n4. Providing explanations\n5. Helping with tasks\n\nWhen users ask questions, provide helpful, accurate, and informative responses. If they ask about specific tasks that would require computer tools, explain what you would do and how you would approach it.\n\nBe conversational, helpful, and provide detailed responses when appropriate."

/-- The provider message list built by `_call_claude_api`: the system prompt
entry, then `conversation_history[:-1]`, then the current user text. -/
def claudeMessages (s : Store) (sid user_message : String) : List ChatMsg :=
  ChatMsg.mk "system" systemPromptText ::
    ((historyFor s sid).dropLast ++ [ChatMsg.mk "user" user_message])

/-- The external provider call, abstracted: from the prepared message list
to either a raised error or the streamed text deltas. -/
abbrev Api := List ChatMsg → Except String (List String)

/-- The streaming read loop of `_call_claude_api`: each text delta is
forwarded with step `"streaming"` and accumulated into the full response. -/
def streamApi (cb : Option Callback) : List String → Except String String × List Event
  | [] => (Except.ok "", [])
  | c :: cs =>
    match emitOpt cb (Event.progress c "streaming") with
    | (Except.error e, es) => (Except.error e, es)
    | (Except.ok (), es) =>
      let rest := streamApi cb cs
      (Except.map (fun t => c ++ t) rest.1, es ++ rest.2)

/-- `_call_claude_api`: "generating" progress notice, provider invocation on
`claudeMessages`, then the streaming loop. -/
def callClaudeApi (s : Store) (sid user_message : String) (cb : Option Callback)
    (api : Api) : Except String String × List Event :=
  match emitOpt cb (Event.progress "Generating response with Claude..." "generating") with
  | (Except.error e, es) => (Except.error e, es)
  | (Except.ok (), es) =>
    match api (claudeMessages s sid user_message) with
    | Except.error e => (Except.error e, es)
    | Except.ok chunks =>
      let rest := streamApi cb chunks
      (rest.1, es ++ rest.2)

/-- The provider-selection block of `process_message`: primary first when
the client was constructed, any failure of it caught and answered by the
fallback; no client means fallback unconditionally. -/
def genStep (s : Store) (sid user_message : String) (hasClient : Bool) (api : Api)
    (cb : Option Callback) : Except String String × List Event :=
  if hasClient then
    match callClaudeApi s sid user_message cb api with
    | (Except.ok r, es) => (Except.ok r, es)
    | (Except.error _, es) =>
      let rest := fallbackRun user_message cb
      (rest.1, es ++ rest.2)
  else fallbackRun user_message cb

/-! ## The orchestrator -/

/-- The `except` block of `process_message`: set the assistant turn's
content to a readable error string, commit, emit the step-`"error"` progress
envelope, then re-raise (a raise from the callback itself replaces the
re-raise, exactly as in Python). -/
def exceptPath (cb : Option Callback) (agentId : Nat) (err : String) (t : List Op) :
    Except String Msg × List Op :=
  let error_msg := "Error processing message: " ++ err
  let t1 := t ++ [Op.setContent agentId error_msg]
  match emitOpt cb (Event.progress error_msg "error") with
  | (Except.error e2, es) => (Except.error e2, t1 ++ es.map Op.emit)
  | (Except.ok (), es) => (Except.error err, t1 ++ es.map Op.emit)

/-- `ComputerUseAgentService.process_message`: returns the Python return
value (the assistant `Message`, or the raised error) together with the full
ordered trace of committed writes and emitted envelopes.  `userId` and
`agentId` stand for the two `uuid4()` draws, `hasClient` for
`self.anthropic_client` being non-`None`.  The final store is `applyOps` of
the trace over the initial store. -/
def process_message (db : Store) (sid user_message : String) (userId agentId : Nat)
    (hasClient : Bool) (api : Api) (cb : Option Callback) :
    Except String Msg × List Op :=
  if db.sessions.contains sid then
    let user_msg : Msg := ⟨userId, sid, MessageRole.user, user_message⟩
    let agent_msg : Msg := ⟨agentId, sid, MessageRole.assistant, ""⟩
    let t0 : List Op := [Op.insertTurn user_msg, Op.insertTurn agent_msg]
    let db2 := applyOps db t0
    match emitOpt cb (Event.progress "Processing your request..." "thinking") with
    | (Except.error e, es) => exceptPath cb agentId e (t0 ++ es.map Op.emit)
    | (Except.ok (), es) =>
      let tA := t0 ++ es.map Op.emit
      match genStep db2 sid user_message hasClient api cb with
      | (Except.error e, es2) => exceptPath cb agentId e (tA ++ es2.map Op.emit)
      | (Except.ok response_content, es2) =>
        let tB := tA ++ es2.map Op.emit ++ [Op.setContent agentId response_content]
        match emitOpt cb (Event.response response_content agentId) with
        | (Except.error e, es3) => exceptPath cb agentId e (tB ++ es3.map Op.emit)
        | (Except.ok (), es3) =>
          (Except.ok { agent_msg with content := response_content }, tB ++ es3.map Op.emit)
  else (Except.error ("Session " ++ sid ++ " not found"), [])

/-- `process_message_task` in `messages.py`: run the orchestrator and, if it
raised, swallow the exception and broadcast one `{type: "error"}` envelope
with the message. -/
def processMessageTask (db : Store) (sid user_message : String) (userId agentId : Nat)
    (hasClient : Bool) (api : Api) (cb : Option Callback) : List Op :=
  match process_message db sid user_message userId agentId hasClient api cb with
  | (Except.ok _, t) => t
  | (Except.error e, t) => t ++ [Op.emit (Event.errorEnvelope e)]

/-! ## Derived notions used by the claims -/

/-- Concatenation of the streamed deltas (the `full_response` accumulator). -/
def concatAll : List String → String
  | [] => ""
  | c :: cs => c ++ concatAll cs

/-- Number of envelopes with wire type `"error"` in a trace. -/
def countErrorEmits (t : List Op) : Nat :=
  t.countP (fun op => match op with
    | Op.emit e => e.wireType == "error"
    | _ => false)

/-- The provider input as the specification words it (claim C7): the
session's full turn history oldest-first with the just-created assistant
turn — identified by its id — excluded, then the new user text last. -/
def specProviderList (s : Store) (sid user_message : String) (agentId : Nat) :
    List ChatMsg :=
  ((s.messages.filter (fun m => m.session_id == sid && !(m.id == agentId))).map
    (fun m => ⟨roleStr m.role, m.content⟩)) ++ [ChatMsg.mk "user" user_message]

/-- The fallback's response categories, in claimed precedence order. -/
inductive FallbackCategory
  | weatherDubai
  | weatherOther
  | searchInfo
  | helpInfo
  | greeting
  | question
  | generic
deriving DecidableEq, Repr

/-- Classifier following the words of claim C10: a `"weather"` substring
wins first (Dubai sub-case when `"dubai"` also occurs), then `"search"`,
then `"help"`, then the greeting words `"hello"`/`"hi"`, then presence of
`"?"`, otherwise generic. -/
def classify (user_message : String) : FallbackCategory :=
  let l := lowerStr user_message
  if hasSub l "weather" then
    (if hasSub l "dubai" then FallbackCategory.weatherDubai
     else FallbackCategory.weatherOther)
  else if hasSub l "search" then FallbackCategory.searchInfo
  else if hasSub l "help" then FallbackCategory.helpInfo
  else if hasSub l "hello" || hasSub l "hi" then FallbackCategory.greeting
  else if hasSub user_message "?" then FallbackCategory.question
  else FallbackCategory.generic

/-- The canned response belonging to each category. -/
def categoryResponse : FallbackCategory → String → String
  | .weatherDubai, _ => dubaiWeatherText
  | .weatherOther, um => weatherOtherText um
  | .searchInfo, um => searchText um
  | .helpInfo, _ => helpText
  | .greeting, _ => helloText
  | .question, um => questionText um
  | .generic, um => genericText um

/-! ## Registry lemmas -/

theorem dictGet_eq_none_of_not_mem (d : Registry) (k : String)
    (h : k ∉ d.map Prod.fst) : dictGet d k = none := by
  induction d with
  | nil => rfl
  | cons e es ih =>
    simp only [List.map_cons, List.mem_cons, not_or] at h
    have hne : (e.1 == k) = false := by
      simp only [beq_eq_false_iff_ne, ne_eq]
      exact fun hc => h.1 hc.symm
    simp only [dictGet, List.find?_cons, hne]
    exact ih h.2

theorem dictGet_dictSet_self (d : Registry) (k : String) (v : List Conn) :
    dictGet (dictSet d k v) k = some v := by
  induction d with
  | nil => simp [dictSet, dictGet, List.find?_cons]
  | cons e es ih =>
    simp only [dictSet]
    by_cases h : (e.1 == k) = true
    · simp [h, dictGet, List.find?_cons]
    · simp only [h, Bool.false_eq_true, if_false]
      simp only [Bool.not_eq_true] at h
      simpa [dictGet, List.find?_cons, h] using ih

theorem dictGet_dictSet_ne (d : Registry) (k k2 : String) (v : List Conn)
    (hne : k2 ≠ k) : dictGet (dictSet d k v) k2 = dictGet d k2 := by
  induction d with
  | nil =>
    have : (k == k2) = false := by simpa [beq_eq_false_iff_ne] using fun h => hne h.symm
    simp [dictSet, dictGet, List.find?_cons, this]
  | cons e es ih =>
    simp only [dictSet]
    by_cases h : (e.1 == k) = true
    · have hk : e.1 = k := by simpa [beq_iff_eq] using h
      have h2 : (k == k2) = false := by
        simpa [beq_eq_false_iff_ne] using fun hc => hne hc.symm
      have h3 : (e.1 == k2) = false := by
        simpa [beq_eq_false_iff_ne, hk] using fun hc => hne hc.symm
      simp [h, dictGet, List.find?_cons, h2, h3]
    · simp only [h, Bool.false_eq_true, if_false]
      simp only [dictGet, List.find?_cons] at *
      cases hfe : (e.1 == k2)
      · simp only [hfe]
        simpa [hfe] using ih
      · simp [hfe]

theorem mem_keys_dictSet (d : Registry) (k x : String) (v : List Conn)
    (h : x ∈ (dictSet d k v).map Prod.fst) : x ∈ d.map Prod.fst ∨ x = k := by
  induction d with
  | nil => simpa [dictSet] using h
  | cons e es ih =>
    simp only [dictSet] at h
    by_cases he : (e.1 == k) = true
    · simp only [he, if_true, List.map_cons, List.mem_cons] at h
      rcases h with h | h
      · right; exact h
      · left; simp [List.map_cons, List.mem_cons]; right
        simpa using h
    · simp only [he, Bool.false_eq_true, if_false, List.map_cons, List.mem_cons] at h
      rcases h with h | h
      · left; simp [h]
      · rcases ih h with h2 | h2
        · left; simp [List.map_cons, List.mem_cons]; right; simpa using h2
        · right; exact h2

theorem nodupKeys_dictSet (d : Registry) (k : String) (v : List Conn)
    (h : NodupKeys d) : NodupKeys (dictSet d k v) := by
  induction d with
  | nil => simp [dictSet, NodupKeys]
  | cons e es ih =>
    simp only [NodupKeys, List.map_cons, List.nodup_cons] at h
    by_cases he : (e.1 == k) = true
    · have hk : e.1 = k := by simpa [beq_iff_eq] using he
      simp only [dictSet, he, if_true, NodupKeys, List.map_cons, List.nodup_cons]
      exact ⟨hk ▸ h.1, h.2⟩
    · have hk : e.1 ≠ k := by simpa [beq_eq_false_iff_ne] using he
      simp only [dictSet, he, Bool.false_eq_true, if_false, NodupKeys, List.map_cons,
        List.nodup_cons]
      refine ⟨fun hc => ?_, ih h.2⟩
      rcases mem_keys_dictSet es k e.1 v hc with h2 | h2
      · exact h.1 h2
      · exact hk h2

theorem dictDel_sublist (d : Registry) (k : String) : (dictDel d k).Sublist d := by
  induction d with
  | nil => simp [dictDel]
  | cons e es ih =>
    simp only [dictDel]
    by_cases he : (e.1 == k) = true
    · simp only [he, if_true]
      exact List.sublist_cons_self e es
    · simp only [he, Bool.false_eq_true, if_false]
      exact List.Sublist.cons₂ e ih

theorem nodupKeys_dictDel (d : Registry) (k : String) (h : NodupKeys d) :
    NodupKeys (dictDel d k) := by
  exact List.Nodup.sublist (List.Sublist.map Prod.fst (dictDel_sublist d k)) h

theorem dictGet_dictDel_self (d : Registry) (k : String) (h : NodupKeys d) :
    dictGet (dictDel d k) k = none := by
  induction d with
  | nil => rfl
  | cons e es ih =>
    simp only [NodupKeys, List.map_cons, List.nodup_cons] at h
    simp only [dictDel]
    by_cases he : (e.1 == k) = true
    · have hk : e.1 = k := by simpa [beq_iff_eq] using he
      simp only [he, if_true]
      exact dictGet_eq_none_of_not_mem es k (hk ▸ h.1)
    · simp only [he, Bool.false_eq_true, if_false, dictGet, List.find?_cons, he]
      exact ih h.2

/-- `disconnect` acts on the conversation's connection list exactly as
`List.erase` (the key disappearing when the list empties included). -/
theorem conns_disconnect (m : WSManager) (ws : Conn) (sid : String)
    (h : NodupKeys m.active_connections) :
    conns (disconnect m ws sid) sid = (conns m sid).erase ws := by
  unfold disconnect
  cases hget : dictGet m.active_connections sid with
  | none => simp [conns, hget]
  | some l =>
    by_cases hmem : ws ∈ l
    · by_cases hemp : (l.erase ws).isEmpty = true
      · have : l.erase ws = [] := by simpa [List.isEmpty_iff] using hemp
        simp [hmem, hemp, conns, hget, this, dictGet_dictDel_self _ _ h]
      · simp [hmem, hemp, conns, hget, dictGet_dictSet_self]
    · simp [hmem, conns, hget, List.erase_of_not_mem hmem]

theorem nodupKeys_disconnect (m : WSManager) (ws : Conn) (sid : String)
    (h : NodupKeys m.active_connections) :
    NodupKeys (disconnect m ws sid).active_connections := by
  unfold disconnect
  cases hget : dictGet m.active_connections sid with
  | none => exact h
  | some l =>
    by_cases hmem : ws ∈ l
    · by_cases hemp : (l.erase ws).isEmpty = true
      · simp only [hmem, hemp, if_true]
        exact nodupKeys_dictDel _ _ h
      · simp only [hmem, hemp, if_true, Bool.false_eq_true, if_false]
        exact nodupKeys_dictSet _ _ _ h
    · simp only [hmem, if_false]
      exact h

theorem conns_foldl_disconnect (ds : List Conn) (m : WSManager) (sid : String)
    (h : NodupKeys m.active_connections) :
    conns (ds.foldl (fun acc c => disconnect acc c sid) m) sid
      = ds.foldl (fun l c => l.erase c) (conns m sid) := by
  induction ds generalizing m with
  | nil => rfl
  | cons c cs ih =>
    simp only [List.foldl_cons]
    rw [ih (disconnect m c sid) (nodupKeys_disconnect m c sid h),
      conns_disconnect m c sid h]

theorem not_mem_foldl_erase (todo : List Conn) (acc : List Conn) (c : Conn)
    (h : acc.count c ≤ todo.count c) :
    c ∉ todo.foldl (fun l x => l.erase x) acc := by
  induction todo generalizing acc with
  | nil =>
    simp only [List.count_nil, Nat.le_zero] at h
    simpa [List.foldl_nil] using List.count_eq_zero.mp h
  | cons x xs ih =>
    simp only [List.foldl_cons]
    apply ih
    by_cases hxc : c = x
    · subst hxc
      rw [List.count_erase_self]
      simp only [List.count_cons_self] at h
      omega
    · rw [List.count_erase_of_ne hxc]
      rw [List.count_cons_of_ne hxc] at h
      exact h

/-! ## Claim theorems: connection registry -/

/-- C1: fanout delivers to every connection whose send succeeds even when
other sends raise, each failing connection is detached from the
conversation's registry entry afterwards, and with no attached connections
the call is a silent no-op; the modelled `send_message` is a total function
(it never raises). -/
theorem send_message_fanout_isolated (m : WSManager) (sid : String)
    (fails : Conn → Bool) (h : NodupKeys m.active_connections) :
    (send_message m sid fails).2 = (conns m sid).filter (fun c => !fails c)
    ∧ (∀ c, fails c = true → c ∉ conns (send_message m sid fails).1 sid)
    ∧ (dictGet m.active_connections sid = none →
        (send_message m sid fails).1 = m ∧ (send_message m sid fails).2 = []) := by
  unfold send_message
  cases hget : dictGet m.active_connections sid with
  | none => simp [conns, hget]
  | some l =>
    refine ⟨by simp [conns, hget], ?_, by simp [hget]⟩
    intro c hc
    simp only
    rw [conns_foldl_disconnect (l.filter fails) m sid h]
    apply not_mem_foldl_erase
    simp [conns, hget, List.count_filter, hc]

/-- C1 witness: conversation `"c"` has connections 0 and 1 attached; 0's
send fails, 1 still receives the event, and 0 is detached afterwards. -/
theorem send_message_fanout_isolated_witness :
    NodupKeys (WSManager.mk [("c", [0, 1])]).active_connections
    ∧ ((send_message (WSManager.mk [("c", [0, 1])]) "c" (fun c => c == 0)).2
        = (conns (WSManager.mk [("c", [0, 1])]) "c").filter (fun c => !(c == 0))
      ∧ (∀ c, (c == 0) = true →
          c ∉ conns (send_message (WSManager.mk [("c", [0, 1])]) "c" (fun c => c == 0)).1 "c")
      ∧ (dictGet (WSManager.mk [("c", [0, 1])]).active_connections "c" = none →
          (send_message (WSManager.mk [("c", [0, 1])]) "c" (fun c => c == 0)).1
            = WSManager.mk [("c", [0, 1])]
          ∧ (send_message (WSManager.mk [("c", [0, 1])]) "c" (fun c => c == 0)).2 = [])) :=
  ⟨by decide, send_message_fanout_isolated (WSManager.mk [("c", [0, 1])]) "c"
    (fun c => c == 0) (by decide)⟩

/-- C8 counterexample: attaching the same connection to the same
conversation a second time does not leave the registry unchanged — the
connection is appended again. -/
theorem connect_not_idempotent :
    connect (connect (WSManager.mk []) 0 "c") 0 "c" ≠ connect (WSManager.mk []) 0 "c" := by
  decide

/-- C8 (amended): attach appends the connection to the conversation's list
(creating the entry when needed) and leaves every other conversation's list
unchanged; a second attach of an already-registered connection appends a
second occurrence rather than being idempotent.  Attach never fails (it is a
total function on registry states). -/
theorem connect_appends (m : WSManager) (ws : Conn) (sid : String) :
    conns (connect m ws sid) sid = conns m sid ++ [ws]
    ∧ (∀ sid2, sid2 ≠ sid → conns (connect m ws sid) sid2 = conns m sid2) := by
  constructor
  · simp [connect, conns, dictGet_dictSet_self]
  · intro sid2 hne
    simp [connect, conns, dictGet_dictSet_ne _ _ _ _ hne]

/-- C8 witness: attaching connection 7 to conversation `"c"` of a registry
that already holds connection 3 appends 7 and leaves conversation `"d"`
untouched. -/
theorem connect_appends_witness :
    conns (connect (WSManager.mk [("c", [3]), ("d", [4])]) 7 "c") "c"
        = conns (WSManager.mk [("c", [3]), ("d", [4])]) "c" ++ [7]
    ∧ "d" ≠ "c"
    ∧ conns (connect (WSManager.mk [("c", [3]), ("d", [4])]) 7 "c") "d"
        = conns (WSManager.mk [("c", [3]), ("d", [4])]) "d" :=
  ⟨(connect_appends (WSManager.mk [("c", [3]), ("d", [4])]) 7 "c").1, by decide,
    (connect_appends (WSManager.mk [("c", [3]), ("d", [4])]) 7 "c").2 "d" (by decide)⟩

/-- C9: detach removes the connection from the conversation's entry
(`List.erase`, so with set-like — duplicate-free — entries the connection is
no longer a member afterwards); detaching a non-member or a conversation
with no entry is a no-op that does not throw; and when the removal empties
the entry, the conversation key itself is deleted. -/
theorem disconnect_spec (m : WSManager) (ws : Conn) (sid : String)
    (h : NodupKeys m.active_connections) :
    conns (disconnect m ws sid) sid = (conns m sid).erase ws
    ∧ (ws ∉ conns m sid → disconnect m ws sid = m)
    ∧ ((conns m sid).Nodup → ws ∉ conns (disconnect m ws sid) sid)
    ∧ (ws ∈ conns m sid → (conns m sid).erase ws = [] →
        dictGet (disconnect m ws sid).active_connections sid = none) := by
  refine ⟨conns_disconnect m ws sid h, ?_, ?_, ?_⟩
  · intro hnm
    unfold disconnect
    cases hget : dictGet m.active_connections sid with
    | none => rfl
    | some l =>
      have : ws ∉ l := by simpa [conns, hget] using hnm
      simp [this]
  · intro hnd
    rw [conns_disconnect m ws sid h]
    exact List.Nodup.not_mem_erase hnd
  · intro hmem hemp
    unfold disconnect
    cases hget : dictGet m.active_connections sid with
    | none => simp [conns, hget] at hmem
    | some l =>
      have hl : ws ∈ l := by simpa [conns, hget] using hmem
      have he : l.erase ws = [] := by simpa [conns, hget] using hemp
      simp [hl, he, dictGet_dictDel_self _ _ h]

/-- C9 witness: detaching connection 5 from conversation `"c"` whose entry
is exactly `[5]` erases it, a non-member detach of 9 is a no-op, and the
emptied key is deleted. -/
theorem disconnect_spec_witness :
    NodupKeys (WSManager.mk [("c", [5])]).active_connections
    ∧ (conns (disconnect (WSManager.mk [("c", [5])]) 5 "c") "c"
        = (conns (WSManager.mk [("c", [5])]) "c").erase 5
      ∧ (5 ∉ conns (WSManager.mk [("c", [5])]) "c" →
          disconnect (WSManager.mk [("c", [5])]) 5 "c" = WSManager.mk [("c", [5])])
      ∧ ((conns (WSManager.mk [("c", [5])]) "c").Nodup →
          5 ∉ conns (disconnect (WSManager.mk [("c", [5])]) 5 "c") "c")
      ∧ (5 ∈ conns (WSManager.mk [("c", [5])]) "c" →
          (conns (WSManager.mk [("c", [5])]) "c").erase 5 = [] →
          dictGet (disconnect (WSManager.mk [("c", [5])]) 5 "c").active_connections "c"
            = none)) :=
  ⟨by decide, disconnect_spec (WSManager.mk [("c", [5])]) 5 "c" (by decide)⟩

/-! ## Trace and store lemmas -/

theorem applyOps_append (s : Store) (t1 t2 : List Op) :
    applyOps s (t1 ++ t2) = applyOps (applyOps s t1) t2 := by
  simp [applyOps, List.foldl_append]

theorem applyOps_map_emit (s : Store) (es : List Event) :
    applyOps s (es.map Op.emit) = s := by
  induction es with
  | nil => rfl
  | cons e es ih => simpa [applyOps, applyOp] using ih

theorem find?_map_update (ms : List Msg) (i : Nat) (c : String) :
    (ms.map (fun m => if m.id == i then { m with content := c } else m)).find?
        (fun m => m.id == i)
      = (ms.find? (fun m => m.id == i)).map (fun m => { m with content := c }) := by
  induction ms with
  | nil => rfl
  | cons m ms ih =>
    simp only [List.map_cons]
    rw [List.find?_cons, List.find?_cons]
    by_cases hm : (m.id == i) = true
    · simp [hm]
    · have hm2 : (m.id == i) = false := by simpa using hm
      simp only [hm2, Bool.false_eq_true, if_false, cond_false]
      exact ih

theorem findTurn_setContent (s : Store) (i : Nat) (c : String) :
    findTurn (applyOp s (Op.setContent i c)) i
      = (findTurn s i).map (fun m => { m with content := c }) := by
  simpa [findTurn, applyOp] using find?_map_update s.messages i c

theorem findTurn_inserts (db : Store) (u a : Msg) (i : Nat)
    (hfresh : ∀ m ∈ db.messages, m.id ≠ i) (hu : u.id ≠ i) (ha : a.id = i) :
    findTurn (applyOps db [Op.insertTurn u, Op.insertTurn a]) i = some a := by
  have hmsgs : (applyOps db [Op.insertTurn u, Op.insertTurn a]).messages
      = db.messages ++ [u, a] := by
    simp [applyOps, applyOp]
  have hnone : db.messages.find? (fun m => m.id == i) = none := by
    rw [List.find?_eq_none]
    intro m hm
    simpa using hfresh m hm
  have hu2 : (u.id == i) = false := by simpa using hu
  have ha2 : (a.id == i) = true := by simpa using ha
  simp [findTurn, hmsgs, List.find?_append, hnone, List.find?_cons, hu2, ha2]

theorem countErrorEmits_append (t1 t2 : List Op) :
    countErrorEmits (t1 ++ t2) = countErrorEmits t1 + countErrorEmits t2 := by
  simp [countErrorEmits, List.countP_append]

theorem countErrorEmits_map_emit (es : List Event)
    (h : ∀ e ∈ es, Event.wireType e ≠ "error") :
    countErrorEmits (es.map Op.emit) = 0 := by
  simp only [countErrorEmits, List.countP_map]
  rw [List.countP_eq_zero]
  intro e he
  have := h e he
  simp only [Function.comp_apply]
  cases e <;> simp_all [Event.wireType]

/-! ## Event-producer lemmas: no `"error"`-typed envelope is emitted inside
`process_message` itself -/

theorem emitOpt_events (cb : Option Callback) (e : Event) :
    ∀ e2 ∈ (emitOpt cb e).2, e2 = e := by
  cases cb <;> simp [emitOpt]

theorem emitChunks_events (cb : Option Callback) (cs : List String) :
    ∀ e ∈ (emitChunks cb cs).2, Event.wireType e ≠ "error" := by
  induction cs with
  | nil => simp [emitChunks]
  | cons c cs ih =>
    intro e he
    have hev := emitOpt_events cb (Event.progress (c ++ " ") "streaming")
    simp only [emitChunks] at he
    rcases hp : emitOpt cb (Event.progress (c ++ " ") "streaming") with ⟨r, es⟩
    rw [hp] at he hev
    cases r with
    | error err =>
      simp only at he
      rw [hev e he]
      simp [Event.wireType]
    | ok u =>
      cases u
      simp only [List.mem_append] at he
      rcases he with he | he
      · rw [hev e he]; simp [Event.wireType]
      · exact ih e he

theorem streamApi_events (cb : Option Callback) (cs : List String) :
    ∀ e ∈ (streamApi cb cs).2, Event.wireType e ≠ "error" := by
  induction cs with
  | nil => simp [streamApi]
  | cons c cs ih =>
    intro e he
    have hev := emitOpt_events cb (Event.progress c "streaming")
    simp only [streamApi] at he
    rcases hp : emitOpt cb (Event.progress c "streaming") with ⟨r, es⟩
    rw [hp] at he hev
    cases r with
    | error err =>
      simp only at he
      rw [hev e he]
      simp [Event.wireType]
    | ok u =>
      cases u
      simp only [List.mem_append] at he
      rcases he with he | he
      · rw [hev e he]; simp [Event.wireType]
      · exact ih e he

theorem fallbackRun_events (um : String) (cb : Option Callback) :
    ∀ e ∈ (fallbackRun um cb).2, Event.wireType e ≠ "error" := by
  intro e he
  have hev := emitOpt_events cb (Event.progress "Using fallback response system..." "fallback")
  simp only [fallbackRun] at he
  rcases hp : emitOpt cb (Event.progress "Using fallback response system..." "fallback")
    with ⟨r, es⟩
  rw [hp] at he hev
  cases r with
  | error err =>
    simp only at he
    rw [hev e he]
    simp [Event.wireType]
  | ok u =>
    cases u
    simp only [streamChunks] at he
    rcases hq : emitChunks cb (chunkWords (pySplit (fallbackResponse um))) with ⟨r2, es2⟩
    have hstream := emitChunks_events cb (chunkWords (pySplit (fallbackResponse um)))
    rw [hq] at he hstream
    cases r2 with
    | error err2 =>
      simp only [List.mem_append] at he
      rcases he with he | he
      · rw [hev e he]; simp [Event.wireType]
      · exact hstream e he
    | ok u2 =>
      cases u2
      simp only [List.mem_append] at he
      rcases he with he | he
      · rw [hev e he]; simp [Event.wireType]
      · exact hstream e he

theorem callClaudeApi_events (s : Store) (sid um : String) (cb : Option Callback)
    (api : Api) : ∀ e ∈ (callClaudeApi s sid um cb api).2, Event.wireType e ≠ "error" := by
  intro e he
  have hev := emitOpt_events cb (Event.progress "Generating response with Claude..." "generating")
  simp only [callClaudeApi] at he
  rcases hp : emitOpt cb (Event.progress "Generating response with Claude..." "generating")
    with ⟨r, es⟩
  rw [hp] at he hev
  cases r with
  | error err =>
    simp only at he
    rw [hev e he]
    simp [Event.wireType]
  | ok u =>
    cases u
    cases hapi : api (claudeMessages s sid um) with
    | error err2 =>
      rw [hapi] at he
      simp only at he
      rw [hev e he]
      simp [Event.wireType]
    | ok chunks =>
      rw [hapi] at he
      have hstream := streamApi_events cb chunks
      simp only [List.mem_append] at he
      rcases he with he | he
      · rw [hev e he]; simp [Event.wireType]
      · exact hstream e he

theorem genStep_events (s : Store) (sid um : String) (hc : Bool) (api : Api)
    (cb : Option Callback) :
    ∀ e ∈ (genStep s sid um hc api cb).2, Event.wireType e ≠ "error" := by
  intro e he
  cases hc with
  | false => exact fallbackRun_events um cb e he
  | true =>
    simp only [genStep] at he
    split at he
    · split at he
      · next r es heq =>
        have hcc := callClaudeApi_events s sid um cb api
        rw [heq] at hcc
        exact hcc e he
      · next err es heq =>
        have hcc := callClaudeApi_events s sid um cb api
        rw [heq] at hcc
        simp only [List.mem_append] at he
        rcases he with he | he
        · exact hcc e he
        · exact fallbackRun_events um cb e he
    · exact fallbackRun_events um cb e he

/-! ## Run lemmas under a well-behaved callback -/

theorem emitOpt_pair_ok (cb : Option Callback) (e : Event) (hcb : CbOk cb) :
    emitOpt cb e = (Except.ok (), (emitOpt cb e).2) := by
  have h := hcb e
  rcases hp : emitOpt cb e with ⟨r, es⟩
  rw [hp] at h
  simp only at h
  subst h
  rfl

theorem emitChunks_fst_ok (cb : Option Callback) (hcb : CbOk cb) (cs : List String) :
    (emitChunks cb cs).1 = Except.ok () := by
  induction cs with
  | nil => rfl
  | cons c cs ih =>
    simp only [emitChunks]
    rw [emitOpt_pair_ok cb _ hcb]
    simp [ih]

theorem streamApi_fst_ok (cb : Option Callback) (hcb : CbOk cb) (cs : List String) :
    (streamApi cb cs).1 = Except.ok (concatAll cs) := by
  induction cs with
  | nil => rfl
  | cons c cs ih =>
    simp only [streamApi]
    rw [emitOpt_pair_ok cb _ hcb]
    simp [ih, concatAll, Except.map]

theorem fallbackRun_fst_ok (um : String) (cb : Option Callback) (hcb : CbOk cb) :
    (fallbackRun um cb).1 = Except.ok (fallbackResponse um) := by
  simp only [fallbackRun]
  rw [emitOpt_pair_ok cb _ hcb]
  simp only [streamChunks]
  rcases hq : emitChunks cb (chunkWords (pySplit (fallbackResponse um))) with ⟨r, es⟩
  have h := emitChunks_fst_ok cb hcb (chunkWords (pySplit (fallbackResponse um)))
  rw [hq] at h
  simp only at h
  subst h
  simp

theorem callClaudeApi_api_error (s : Store) (sid um : String) (cb : Option Callback)
    (api : Api) (e : String) (hcb : CbOk cb)
    (hapi : api (claudeMessages s sid um) = Except.error e) :
    (callClaudeApi s sid um cb api).1 = Except.error e := by
  simp only [callClaudeApi]
  rw [emitOpt_pair_ok cb _ hcb]
  simp [hapi]

theorem callClaudeApi_api_ok (s : Store) (sid um : String) (cb : Option Callback)
    (api : Api) (chunks : List String) (hcb : CbOk cb)
    (hapi : api (claudeMessages s sid um) = Except.ok chunks) :
    (callClaudeApi s sid um cb api).1 = Except.ok (concatAll chunks) := by
  simp only [callClaudeApi]
  rw [emitOpt_pair_ok cb _ hcb]
  simp [hapi, streamApi_fst_ok cb hcb chunks]

theorem genStep_no_client (s : Store) (sid um : String) (api : Api)
    (cb : Option Callback) : genStep s sid um false api cb = fallbackRun um cb := rfl

theorem genStep_primary_ok (s : Store) (sid um : String) (api : Api)
    (cb : Option Callback) (chunks : List String) (hcb : CbOk cb)
    (hapi : api (claudeMessages s sid um) = Except.ok chunks) :
    (genStep s sid um true api cb).1 = Except.ok (concatAll chunks) := by
  unfold genStep
  rw [if_pos rfl]
  rcases hp : callClaudeApi s sid um cb api with ⟨r, es⟩
  have h1 := callClaudeApi_api_ok s sid um cb api chunks hcb hapi
  rw [hp] at h1
  simp only at h1
  subst h1
  simp

theorem genStep_primary_error (s : Store) (sid um : String) (api : Api)
    (cb : Option Callback) (e : String) (hcb : CbOk cb)
    (hapi : api (claudeMessages s sid um) = Except.error e) :
    (genStep s sid um true api cb).1 = Except.ok (fallbackResponse um) := by
  unfold genStep
  rw [if_pos rfl]
  rcases hp : callClaudeApi s sid um cb api with ⟨r, es⟩
  have h1 := callClaudeApi_api_error s sid um cb api e hcb hapi
  rw [hp] at h1
  simp only at h1
  subst h1
  simp [fallbackRun_fst_ok um cb hcb]

/-! ## Characterization of the orchestrator's branches -/

theorem exceptPath_fst_error (cb : Option Callback) (agentId : Nat) (err : String)
    (t : List Op) : ∃ e2, (exceptPath cb agentId err t).1 = Except.error e2 := by
  rcases hp : emitOpt cb (Event.progress ("Error processing message: " ++ err) "error")
    with ⟨r, es⟩
  cases r with
  | error e2 => exact ⟨e2, by simp [exceptPath, hp]⟩
  | ok u => cases u; exact ⟨err, by simp [exceptPath, hp]⟩

theorem exceptPath_eq_of_errcb_ok (cb : Option Callback) (agentId : Nat) (err : String)
    (t : List Op)
    (hcb : (emitOpt cb (Event.progress ("Error processing message: " ++ err) "error")).1
      = Except.ok ()) :
    exceptPath cb agentId err t
      = (Except.error err,
          t ++ [Op.setContent agentId ("Error processing message: " ++ err)]
            ++ ((emitOpt cb
                (Event.progress ("Error processing message: " ++ err) "error")).2).map
                  Op.emit) := by
  rcases hp : emitOpt cb (Event.progress ("Error processing message: " ++ err) "error")
    with ⟨r, es⟩
  rw [hp] at hcb
  simp only at hcb
  subst hcb
  simp [exceptPath, hp]

theorem pm_sid_missing (db : Store) (sid um : String) (uId aId : Nat) (hc : Bool)
    (api : Api) (cb : Option Callback) (h : db.sessions.contains sid = false) :
    process_message db sid um uId aId hc api cb
      = (Except.error ("Session " ++ sid ++ " not found"), []) := by
  have h2 : sid ∉ db.sessions := by
    intro hm
    have h3 : db.sessions.contains sid = true := List.elem_eq_true_of_mem hm
    rw [h] at h3
    exact Bool.false_ne_true h3
  simp [process_message, h2]

theorem pm_thinking_error (db : Store) (sid um : String) (uId aId : Nat) (hc : Bool)
    (api : Api) (cb : Option Callback) (e : String) (es1 : List Event)
    (hsid : db.sessions.contains sid = true)
    (h1 : emitOpt cb (Event.progress "Processing your request..." "thinking")
      = (Except.error e, es1)) :
    process_message db sid um uId aId hc api cb
      = exceptPath cb aId e
          ([Op.insertTurn ⟨uId, sid, MessageRole.user, um⟩,
            Op.insertTurn ⟨aId, sid, MessageRole.assistant, ""⟩] ++ es1.map Op.emit) := by
  unfold process_message
  rw [if_pos hsid]
  simp only [h1]

theorem pm_gen_error (db : Store) (sid um : String) (uId aId : Nat) (hc : Bool)
    (api : Api) (cb : Option Callback) (e : String) (es1 es2 : List Event)
    (hsid : db.sessions.contains sid = true)
    (h1 : emitOpt cb (Event.progress "Processing your request..." "thinking")
      = (Except.ok (), es1))
    (h2 : genStep
        (applyOps db [Op.insertTurn ⟨uId, sid, MessageRole.user, um⟩,
          Op.insertTurn ⟨aId, sid, MessageRole.assistant, ""⟩]) sid um hc api cb
      = (Except.error e, es2)) :
    process_message db sid um uId aId hc api cb
      = exceptPath cb aId e
          ([Op.insertTurn ⟨uId, sid, MessageRole.user, um⟩,
            Op.insertTurn ⟨aId, sid, MessageRole.assistant, ""⟩]
            ++ es1.map Op.emit ++ es2.map Op.emit) := by
  unfold process_message
  rw [if_pos hsid]
  simp only [h1, h2]

theorem pm_response_emit_error (db : Store) (sid um : String) (uId aId : Nat)
    (hc : Bool) (api : Api) (cb : Option Callback) (content e : String)
    (es1 es2 es3 : List Event)
    (hsid : db.sessions.contains sid = true)
    (h1 : emitOpt cb (Event.progress "Processing your request..." "thinking")
      = (Except.ok (), es1))
    (h2 : genStep
        (applyOps db [Op.insertTurn ⟨uId, sid, MessageRole.user, um⟩,
          Op.insertTurn ⟨aId, sid, MessageRole.assistant, ""⟩]) sid um hc api cb
      = (Except.ok content, es2))
    (h3 : emitOpt cb (Event.response content aId) = (Except.error e, es3)) :
    process_message db sid um uId aId hc api cb
      = exceptPath cb aId e
          ([Op.insertTurn ⟨uId, sid, MessageRole.user, um⟩,
            Op.insertTurn ⟨aId, sid, MessageRole.assistant, ""⟩]
            ++ es1.map Op.emit ++ es2.map Op.emit
            ++ [Op.setContent aId content] ++ es3.map Op.emit) := by
  unfold process_message
  rw [if_pos hsid]
  simp only [h1, h2, h3]

theorem pm_success (db : Store) (sid um : String) (uId aId : Nat) (hc : Bool)
    (api : Api) (cb : Option Callback) (content : String) (es1 es2 es3 : List Event)
    (hsid : db.sessions.contains sid = true)
    (h1 : emitOpt cb (Event.progress "Processing your request..." "thinking")
      = (Except.ok (), es1))
    (h2 : genStep
        (applyOps db [Op.insertTurn ⟨uId, sid, MessageRole.user, um⟩,
          Op.insertTurn ⟨aId, sid, MessageRole.assistant, ""⟩]) sid um hc api cb
      = (Except.ok content, es2))
    (h3 : emitOpt cb (Event.response content aId) = (Except.ok (), es3)) :
    process_message db sid um uId aId hc api cb
      = (Except.ok ⟨aId, sid, MessageRole.assistant, content⟩,
          [Op.insertTurn ⟨uId, sid, MessageRole.user, um⟩,
            Op.insertTurn ⟨aId, sid, MessageRole.assistant, ""⟩]
            ++ es1.map Op.emit ++ es2.map Op.emit
            ++ [Op.setContent aId content] ++ es3.map Op.emit) := by
  unfold process_message
  rw [if_pos hsid]
  simp only [h1, h2, h3]

theorem exceptPath_fst_ne_ok (cb : Option Callback) (agentId : Nat) (err : String)
    (t : List Op) (m : Msg) : (exceptPath cb agentId err t).1 ≠ Except.ok m := by
  obtain ⟨e2, he2⟩ := exceptPath_fst_error cb agentId err t
  simp [he2]

theorem fst_eq_pair {α β : Type} (p : α × β) (x : α) (h : p.1 = x) : p = (x, p.2) := by
  rw [← h]

theorem task_of_error (db : Store) (sid um : String) (uId aId : Nat) (hc : Bool)
    (api : Api) (cb : Option Callback) (e : String)
    (h : (process_message db sid um uId aId hc api cb).1 = Except.error e) :
    processMessageTask db sid um uId aId hc api cb
      = (process_message db sid um uId aId hc api cb).2
          ++ [Op.emit (Event.errorEnvelope e)] := by
  unfold processMessageTask
  rcases hp : process_message db sid um uId aId hc api cb with ⟨r, t⟩
  rw [hp] at h
  simp only at h
  subst h
  rfl

theorem find?_isSome_map (l : List Msg) (upd : Msg → Msg) (p : Msg → Bool)
    (hp : ∀ x, p (upd x) = p x) :
    (List.find? p (l.map upd)).isSome = (List.find? p l).isSome := by
  induction l with
  | nil => rfl
  | cons m ms ih =>
    have hfun : (p ∘ upd) = p := funext hp
    simp only [List.map_cons]
    rw [List.find?_cons, List.find?_cons, hp m]
    cases hpm : p m <;> simp [List.find?_map, hfun, ih]

theorem findTurn_isSome_applyOp (s : Store) (i : Nat) (op : Op)
    (h : (findTurn s i).isSome = true) : (findTurn (applyOp s op) i).isSome = true := by
  cases op with
  | insertTurn m =>
    simp only [findTurn, applyOp, List.find?_append]
    simp only [findTurn] at h
    rcases ho : s.messages.find? (fun m => m.id == i) with _ | v
    · rw [ho] at h; simp at h
    · simp [ho]
  | setContent j c =>
    simp only [findTurn, applyOp]
    rw [find?_isSome_map]
    · exact h
    · intro x
      by_cases hx : (x.id == j) = true <;> simp [hx]
  | emit e => exact h

theorem findTurn_isSome_applyOps (s : Store) (i : Nat) (ops : List Op)
    (h : (findTurn s i).isSome = true) :
    (findTurn (applyOps s ops) i).isSome = true := by
  induction ops generalizing s with
  | nil => exact h
  | cons op ops ih =>
    have : applyOps s (op :: ops) = applyOps (applyOp s op) ops := rfl
    rw [this]
    exact ih (applyOp s op) (findTurn_isSome_applyOp s i op h)

theorem findTurn_last_set (s : Store) (t : List Op) (i : Nat) (c : String)
    (es : List Event) :
    findTurn (applyOps s (t ++ [Op.setContent i c] ++ es.map Op.emit)) i
      = (findTurn (applyOps s t) i).map (fun m => { m with content := c }) := by
  rw [applyOps_append, applyOps_append, applyOps_map_emit]
  have : applyOps (applyOps s t) [Op.setContent i c]
      = applyOp (applyOps s t) (Op.setContent i c) := rfl
  rw [this, findTurn_setContent]

theorem map_content_of_isSome (o : Option Msg) (c : String) (h : o.isSome = true) :
    (o.map (fun m => { m with content := c })).map (fun t => t.content) = some c := by
  rcases o with _ | m
  · simp at h
  · rfl

theorem exceptPath_fst_of_errcb (f : Callback) (aId : Nat) (err : String) (t : List Op)
    (hecb : ∀ s2, f (Event.progress s2 "error") = Except.ok ()) :
    (exceptPath (some f) aId err t).1 = Except.error err := by
  rw [exceptPath_eq_of_errcb_ok (some f) aId err t (by simp [emitOpt, hecb])]

theorem c3_core (db : Store) (sid um : String) (uId aId : Nat) (hc : Bool) (api : Api)
    (f : Callback) (e0 : String) (T : List Op)
    (hecb : ∀ s2, f (Event.progress s2 "error") = Except.ok ())
    (hpm : process_message db sid um uId aId hc api (some f)
      = exceptPath (some f) aId e0 T)
    (hSome : (findTurn (applyOps db T) aId).isSome = true)
    (hTcnt : countErrorEmits T = 0) :
    (findTurn (applyOps db (processMessageTask db sid um uId aId hc api (some f)))
        aId).map (fun t => t.content) = some ("Error processing message: " ++ e0)
    ∧ ∃ t, processMessageTask db sid um uId aId hc api (some f)
        = t ++ [Op.emit (Event.errorEnvelope e0)]
      ∧ countErrorEmits t = 0 := by
  have hexc : (emitOpt (some f)
      (Event.progress ("Error processing message: " ++ e0) "error")).1 = Except.ok () := by
    simp [emitOpt, hecb]
  have hEq := exceptPath_eq_of_errcb_ok (some f) aId e0 T hexc
  have hes : (emitOpt (some f)
      (Event.progress ("Error processing message: " ++ e0) "error")).2
      = [Event.progress ("Error processing message: " ++ e0) "error"] := rfl
  rw [hes] at hEq
  have h1 : (process_message db sid um uId aId hc api (some f)).1 = Except.error e0 := by
    rw [hpm, hEq]
  have htask := task_of_error db sid um uId aId hc api (some f) e0 h1
  have htr : (process_message db sid um uId aId hc api (some f)).2
      = T ++ [Op.setContent aId ("Error processing message: " ++ e0)]
        ++ [Event.progress ("Error processing message: " ++ e0) "error"].map Op.emit := by
    rw [hpm, hEq]
  rw [htr] at htask
  constructor
  · rw [htask, applyOps_append]
    have hsingle : applyOps (applyOps db
        (T ++ [Op.setContent aId ("Error processing message: " ++ e0)]
          ++ [Event.progress ("Error processing message: " ++ e0) "error"].map Op.emit))
        [Op.emit (Event.errorEnvelope e0)]
        = applyOps db (T ++ [Op.setContent aId ("Error processing message: " ++ e0)]
          ++ [Event.progress ("Error processing message: " ++ e0) "error"].map
            Op.emit) := rfl
    rw [hsingle, findTurn_last_set]
    exact map_content_of_isSome _ _ hSome
  · refine ⟨T ++ [Op.setContent aId ("Error processing message: " ++ e0)]
        ++ [Event.progress ("Error processing message: " ++ e0) "error"].map Op.emit,
      htask, ?_⟩
    rw [countErrorEmits_append, countErrorEmits_append, hTcnt]
    simp [countErrorEmits, Event.wireType]

/-! ## Claim theorems: the orchestrator -/

/-- C5: processing a message for a session id with no conversation raises
the not-found error and performs zero store writes and zero event
emissions — the trace is empty, so in particular neither turn is persisted
and the store is unchanged. -/
theorem process_message_notfound (db : Store) (sid um : String) (uId aId : Nat)
    (hc : Bool) (api : Api) (cb : Option Callback)
    (h : db.sessions.contains sid = false) :
    process_message db sid um uId aId hc api cb
      = (Except.error ("Session " ++ sid ++ " not found"), [])
    ∧ applyOps db (process_message db sid um uId aId hc api cb).2 = db := by
  have hp := pm_sid_missing db sid um uId aId hc api cb h
  exact ⟨hp, by rw [hp]; rfl⟩

/-- C5 witness: the empty store has no session `"s"`; the call raises and
leaves the store untouched. -/
theorem process_message_notfound_witness :
    (Store.mk [] []).sessions.contains "s" = false
    ∧ (process_message (Store.mk [] []) "s" "hi" 0 1 false (fun _ => Except.error "x") none
        = (Except.error ("Session " ++ "s" ++ " not found"), [])
      ∧ applyOps (Store.mk [] [])
          (process_message (Store.mk [] []) "s" "hi" 0 1 false
            (fun _ => Except.error "x") none).2 = Store.mk [] []) :=
  ⟨by decide, process_message_notfound (Store.mk [] []) "s" "hi" 0 1 false
    (fun _ => Except.error "x") none (by decide)⟩

/-- C4: provider selection policy — (i) with the client constructed and the
primary call failing, the failure is caught and the fallback's response is
returned for that request, the primary failure not surfaced; (ii) with the
client constructed and the primary call succeeding, the primary's streamed
text is returned (the primary is attempted first); (iii) with no client the
run is identical for any two provider functions (the primary is never
attempted) and the fallback's response is returned unconditionally. -/
theorem gateway_selection_policy (db : Store) (sid um : String) (uId aId : Nat)
    (api api2 : Api) (cb : Option Callback) (e : String) (chunks : List String)
    (hsid : db.sessions.contains sid = true) (hcb : CbOk cb) :
    (api (claudeMessages (applyOps db
          [Op.insertTurn ⟨uId, sid, MessageRole.user, um⟩,
            Op.insertTurn ⟨aId, sid, MessageRole.assistant, ""⟩]) sid um)
        = Except.error e →
      (process_message db sid um uId aId true api cb).1
        = Except.ok ⟨aId, sid, MessageRole.assistant, fallbackResponse um⟩)
    ∧ (api (claudeMessages (applyOps db
          [Op.insertTurn ⟨uId, sid, MessageRole.user, um⟩,
            Op.insertTurn ⟨aId, sid, MessageRole.assistant, ""⟩]) sid um)
        = Except.ok chunks →
      (process_message db sid um uId aId true api cb).1
        = Except.ok ⟨aId, sid, MessageRole.assistant, concatAll chunks⟩)
    ∧ process_message db sid um uId aId false api cb
        = process_message db sid um uId aId false api2 cb
    ∧ (process_message db sid um uId aId false api cb).1
        = Except.ok ⟨aId, sid, MessageRole.assistant, fallbackResponse um⟩ := by
  refine ⟨?_, ?_, ?_, ?_⟩
  · intro hapi
    have h2 := fst_eq_pair _ _ (genStep_primary_error _ sid um api cb e hcb hapi)
    rw [pm_success db sid um uId aId true api cb (fallbackResponse um) _ _ _ hsid
      (emitOpt_pair_ok cb _ hcb) h2 (emitOpt_pair_ok cb _ hcb)]
  · intro hapi
    have h2 := fst_eq_pair _ _ (genStep_primary_ok _ sid um api cb chunks hcb hapi)
    rw [pm_success db sid um uId aId true api cb (concatAll chunks) _ _ _ hsid
      (emitOpt_pair_ok cb _ hcb) h2 (emitOpt_pair_ok cb _ hcb)]
  · rfl
  · have h2 : genStep (applyOps db
        [Op.insertTurn ⟨uId, sid, MessageRole.user, um⟩,
          Op.insertTurn ⟨aId, sid, MessageRole.assistant, ""⟩]) sid um false api cb
        = (Except.ok (fallbackResponse um), (fallbackRun um cb).2) := by
      rw [genStep_no_client]
      exact fst_eq_pair _ _ (fallbackRun_fst_ok um cb hcb)
    rw [pm_success db sid um uId aId false api cb (fallbackResponse um) _ _ _ hsid
      (emitOpt_pair_ok cb _ hcb) h2 (emitOpt_pair_ok cb _ hcb)]

/-- C4 witness: session `"s"` exists, the callback is absent (and so never
raises); with an always-failing primary the fallback's greeting response is
returned, with a succeeding primary its text is returned, and with no
client the provider function is irrelevant. -/
theorem gateway_selection_policy_witness :
    (Store.mk ["s"] []).sessions.contains "s" = true
    ∧ CbOk none
    ∧ (((fun _ => Except.error "boom") : Api) (claudeMessages (applyOps (Store.mk ["s"] [])
            [Op.insertTurn ⟨0, "s", MessageRole.user, "hello"⟩,
              Op.insertTurn ⟨1, "s", MessageRole.assistant, ""⟩]) "s" "hello")
          = Except.error "boom" →
        (process_message (Store.mk ["s"] []) "s" "hello" 0 1 true
            (fun _ => Except.error "boom") none).1
          = Except.ok ⟨1, "s", MessageRole.assistant, fallbackResponse "hello"⟩)
      ∧ (((fun _ => Except.error "boom") : Api) (claudeMessages (applyOps (Store.mk ["s"] [])
            [Op.insertTurn ⟨0, "s", MessageRole.user, "hello"⟩,
              Op.insertTurn ⟨1, "s", MessageRole.assistant, ""⟩]) "s" "hello")
          = Except.ok ["hi there"] →
        (process_message (Store.mk ["s"] []) "s" "hello" 0 1 true
            (fun _ => Except.error "boom") none).1
          = Except.ok ⟨1, "s", MessageRole.assistant, concatAll ["hi there"]⟩)
      ∧ process_message (Store.mk ["s"] []) "s" "hello" 0 1 false
            (fun _ => Except.error "boom") none
          = process_message (Store.mk ["s"] []) "s" "hello" 0 1 false
            (fun _ => Except.ok ["hi there"]) none
      ∧ (process_message (Store.mk ["s"] []) "s" "hello" 0 1 false
            (fun _ => Except.error "boom") none).1
          = Except.ok ⟨1, "s", MessageRole.assistant, fallbackResponse "hello"⟩ :=
  ⟨by decide, fun e => rfl,
    gateway_selection_policy (Store.mk ["s"] []) "s" "hello" 0 1
      (fun _ => Except.error "boom") (fun _ => Except.ok ["hi there"]) none "boom"
      ["hi there"] (by decide) (fun e => rfl)⟩

/-- C2: a successful submission commits the assistant turn's final content
and then emits the terminal final-response event as the very last step of
the trace; consequently a reader who has observed the final-response event
and re-reads the assistant turn by the event's `message_id` sees exactly
the event's `content`. -/
theorem durability_before_broadcast (db : Store) (sid um : String) (uId aId : Nat)
    (hc : Bool) (api : Api) (f : Callback) (m : Msg)
    (hfresh : ∀ mm ∈ db.messages, mm.id ≠ aId) (hu : uId ≠ aId)
    (h : (process_message db sid um uId aId hc api (some f)).1 = Except.ok m) :
    ∃ pre,
      (process_message db sid um uId aId hc api (some f)).2
        = pre ++ [Op.setContent aId m.content, Op.emit (Event.response m.content aId)]
      ∧ (findTurn (applyOps db (process_message db sid um uId aId hc api (some f)).2)
            aId).map (fun t => t.content) = some m.content := by
  cases hsid : db.sessions.contains sid with
  | false =>
    rw [pm_sid_missing db sid um uId aId hc api (some f) hsid] at h
    cases h
  | true =>
    cases h1 : f (Event.progress "Processing your request..." "thinking") with
    | error e =>
      have h1' : emitOpt (some f) (Event.progress "Processing your request..." "thinking")
          = (Except.error e, [Event.progress "Processing your request..." "thinking"]) := by
        simp [emitOpt, h1]
      rw [pm_thinking_error db sid um uId aId hc api (some f) e _ hsid h1'] at h
      exact absurd h (exceptPath_fst_ne_ok _ _ _ _ _)
    | ok u =>
      cases u
      have h1' : emitOpt (some f) (Event.progress "Processing your request..." "thinking")
          = (Except.ok (), [Event.progress "Processing your request..." "thinking"]) := by
        simp [emitOpt, h1]
      rcases h2 : genStep (applyOps db [Op.insertTurn ⟨uId, sid, MessageRole.user, um⟩,
          Op.insertTurn ⟨aId, sid, MessageRole.assistant, ""⟩]) sid um hc api (some f)
        with ⟨r2, es2⟩
      cases r2 with
      | error e =>
        rw [pm_gen_error db sid um uId aId hc api (some f) e _ _ hsid h1' h2] at h
        exact absurd h (exceptPath_fst_ne_ok _ _ _ _ _)
      | ok content =>
        cases h3 : f (Event.response content aId) with
        | error e =>
          have h3' : emitOpt (some f) (Event.response content aId)
              = (Except.error e, [Event.response content aId]) := by
            simp [emitOpt, h3]
          rw [pm_response_emit_error db sid um uId aId hc api (some f) content e _ _ _
            hsid h1' h2 h3'] at h
          exact absurd h (exceptPath_fst_ne_ok _ _ _ _ _)
        | ok u2 =>
          cases u2
          have h3' : emitOpt (some f) (Event.response content aId)
              = (Except.ok (), [Event.response content aId]) := by
            simp [emitOpt, h3]
          have hpm := pm_success db sid um uId aId hc api (some f) content _ _ _
            hsid h1' h2 h3'
          rw [hpm] at h
          simp only [Except.ok.injEq] at h
          subst h
          rw [hpm]
          refine ⟨[Op.insertTurn ⟨uId, sid, MessageRole.user, um⟩,
              Op.insertTurn ⟨aId, sid, MessageRole.assistant, ""⟩]
              ++ [Event.progress "Processing your request..." "thinking"].map Op.emit
              ++ es2.map Op.emit, by simp, ?_⟩
          have hshape :
              ([Op.insertTurn ⟨uId, sid, MessageRole.user, um⟩,
                  Op.insertTurn (⟨aId, sid, MessageRole.assistant, ""⟩ : Msg)]
                ++ [Event.progress "Processing your request..." "thinking"].map Op.emit
                ++ es2.map Op.emit ++ [Op.setContent aId content]
                ++ [Event.response content aId].map Op.emit)
              = (([Op.insertTurn ⟨uId, sid, MessageRole.user, um⟩,
                  Op.insertTurn (⟨aId, sid, MessageRole.assistant, ""⟩ : Msg)]
                ++ [Event.progress "Processing your request..." "thinking"].map Op.emit
                ++ es2.map Op.emit) ++ [Op.setContent aId content]
                ++ ([Event.response content aId]).map Op.emit) := by
            simp
          rw [hshape, findTurn_last_set]
          apply map_content_of_isSome
          rw [applyOps_append, applyOps_append, applyOps_map_emit, applyOps_map_emit]
          rw [findTurn_inserts db _ _ aId hfresh hu rfl]
          rfl

/-- C2 witness: a concrete successful run — session `"s"`, no client, the
callback accepts everything — commits `fallbackResponse "hello"` and then
emits the final-response event last; re-reading turn 1 yields the same
content. -/
theorem durability_before_broadcast_witness :
    (∀ mm ∈ (Store.mk ["s"] []).messages, mm.id ≠ 1)
    ∧ (0 : Nat) ≠ 1
    ∧ (process_message (Store.mk ["s"] []) "s" "hello" 0 1 false
        (fun _ => Except.error "x") (some (fun _ => Except.ok ()))).1
      = Except.ok ⟨1, "s", MessageRole.assistant, fallbackResponse "hello"⟩
    ∧ ∃ pre,
      (process_message (Store.mk ["s"] []) "s" "hello" 0 1 false
          (fun _ => Except.error "x") (some (fun _ => Except.ok ()))).2
        = pre ++ [Op.setContent 1
              (Msg.content ⟨1, "s", MessageRole.assistant, fallbackResponse "hello"⟩),
            Op.emit (Event.response
              (Msg.content ⟨1, "s", MessageRole.assistant, fallbackResponse "hello"⟩) 1)]
      ∧ (findTurn (applyOps (Store.mk ["s"] [])
            (process_message (Store.mk ["s"] []) "s" "hello" 0 1 false
              (fun _ => Except.error "x") (some (fun _ => Except.ok ()))).2) 1).map
          (fun t => t.content)
        = some (Msg.content ⟨1, "s", MessageRole.assistant, fallbackResponse "hello"⟩) := by
  have hok : (process_message (Store.mk ["s"] []) "s" "hello" 0 1 false
      (fun _ => Except.error "x") (some (fun _ => Except.ok ()))).1
      = Except.ok ⟨1, "s", MessageRole.assistant, fallbackResponse "hello"⟩ := by
    have h2 : genStep (applyOps (Store.mk ["s"] [])
        [Op.insertTurn ⟨0, "s", MessageRole.user, "hello"⟩,
          Op.insertTurn ⟨1, "s", MessageRole.assistant, ""⟩]) "s" "hello" false
        (fun _ => Except.error "x") (some (fun _ => Except.ok ()))
        = (Except.ok (fallbackResponse "hello"),
            (fallbackRun "hello" (some (fun _ => Except.ok ()))).2) := by
      rw [genStep_no_client]
      exact fst_eq_pair _ _ (fallbackRun_fst_ok "hello" _ (fun e => rfl))
    rw [pm_success (Store.mk ["s"] []) "s" "hello" 0 1 false (fun _ => Except.error "x")
      (some (fun _ => Except.ok ())) (fallbackResponse "hello") _ _ _ (by decide)
      (emitOpt_pair_ok _ _ (fun e => rfl)) h2 (emitOpt_pair_ok _ _ (fun e => rfl))]
  exact ⟨(by intro mm hmm; cases hmm), (by decide), hok,
    durability_before_broadcast (Store.mk ["s"] []) "s" "hello" 0 1 false
      (fun _ => Except.error "x") (fun _ => Except.ok ())
      ⟨1, "s", MessageRole.assistant, fallbackResponse "hello"⟩
      (by intro mm hmm; cases hmm) (by decide) hok⟩

/-- C3: when an exception is raised after the assistant turn exists (the
session was found, so both turns were created) and the terminal broadcast
itself goes through, the orchestrator updates the assistant turn's content
to the human-readable error string, the background task emits exactly one
`"error"`-typed envelope carrying the re-raised message — in terminal
position, with no other `"error"`-typed envelope anywhere in the trace —
and the failure reaches `process_message`'s caller as the `error` result
(hypothesis `h`) instead of being swallowed. -/
theorem error_path_terminal (db : Store) (sid um : String) (uId aId : Nat) (hc : Bool)
    (api : Api) (f : Callback) (e0 : String)
    (hsid : db.sessions.contains sid = true)
    (hfresh : ∀ mm ∈ db.messages, mm.id ≠ aId) (hu : uId ≠ aId)
    (hecb : ∀ s2, f (Event.progress s2 "error") = Except.ok ())
    (h : (process_message db sid um uId aId hc api (some f)).1 = Except.error e0) :
    (findTurn (applyOps db (processMessageTask db sid um uId aId hc api (some f)))
        aId).map (fun t => t.content) = some ("Error processing message: " ++ e0)
    ∧ ∃ t, processMessageTask db sid um uId aId hc api (some f)
        = t ++ [Op.emit (Event.errorEnvelope e0)]
      ∧ countErrorEmits t = 0 := by
  cases h1 : f (Event.progress "Processing your request..." "thinking") with
  | error e =>
    have h1' : emitOpt (some f) (Event.progress "Processing your request..." "thinking")
        = (Except.error e, [Event.progress "Processing your request..." "thinking"]) := by
      simp [emitOpt, h1]
    have hpm := pm_thinking_error db sid um uId aId hc api (some f) e _ hsid h1'
    rw [hpm, exceptPath_fst_of_errcb f aId e _ hecb] at h
    simp only [Except.error.injEq] at h
    subst h
    apply c3_core db sid um uId aId hc api f e _ hecb hpm
    · rw [applyOps_append, applyOps_map_emit,
        findTurn_inserts db _ _ aId hfresh hu rfl]
      rfl
    · simp [countErrorEmits, Event.wireType]
  | ok u =>
    cases u
    have h1' : emitOpt (some f) (Event.progress "Processing your request..." "thinking")
        = (Except.ok (), [Event.progress "Processing your request..." "thinking"]) := by
      simp [emitOpt, h1]
    rcases h2 : genStep (applyOps db [Op.insertTurn ⟨uId, sid, MessageRole.user, um⟩,
        Op.insertTurn ⟨aId, sid, MessageRole.assistant, ""⟩]) sid um hc api (some f)
      with ⟨r2, es2⟩
    have hev2 : ∀ e ∈ es2, Event.wireType e ≠ "error" := by
      have := genStep_events (applyOps db [Op.insertTurn ⟨uId, sid, MessageRole.user, um⟩,
        Op.insertTurn ⟨aId, sid, MessageRole.assistant, ""⟩]) sid um hc api (some f)
      rw [h2] at this
      exact this
    cases r2 with
    | error e =>
      have hpm := pm_gen_error db sid um uId aId hc api (some f) e _ _ hsid h1' h2
      rw [hpm, exceptPath_fst_of_errcb f aId e _ hecb] at h
      simp only [Except.error.injEq] at h
      subst h
      apply c3_core db sid um uId aId hc api f e _ hecb hpm
      · rw [applyOps_append, applyOps_append, applyOps_map_emit, applyOps_map_emit,
          findTurn_inserts db _ _ aId hfresh hu rfl]
        rfl
      · rw [countErrorEmits_append, countErrorEmits_append,
          countErrorEmits_map_emit es2 hev2]
        simp [countErrorEmits, Event.wireType]
    | ok content =>
      cases h3 : f (Event.response content aId) with
      | error e =>
        have h3' : emitOpt (some f) (Event.response content aId)
            = (Except.error e, [Event.response content aId]) := by
          simp [emitOpt, h3]
        have hpm := pm_response_emit_error db sid um uId aId hc api (some f) content e
          _ _ _ hsid h1' h2 h3'
        rw [hpm, exceptPath_fst_of_errcb f aId e _ hecb] at h
        simp only [Except.error.injEq] at h
        subst h
        apply c3_core db sid um uId aId hc api f e _ hecb hpm
        · have hshape :
              ([Op.insertTurn ⟨uId, sid, MessageRole.user, um⟩,
                  Op.insertTurn (⟨aId, sid, MessageRole.assistant, ""⟩ : Msg)]
                ++ [Event.progress "Processing your request..." "thinking"].map Op.emit
                ++ es2.map Op.emit ++ [Op.setContent aId content]
                ++ [Event.response content aId].map Op.emit)
              = (([Op.insertTurn ⟨uId, sid, MessageRole.user, um⟩,
                  Op.insertTurn (⟨aId, sid, MessageRole.assistant, ""⟩ : Msg)]
                ++ [Event.progress "Processing your request..." "thinking"].map Op.emit
                ++ es2.map Op.emit) ++ [Op.setContent aId content]
                ++ ([Event.response content aId]).map Op.emit) := by
            simp
          rw [hshape, findTurn_last_set]
          rw [applyOps_append, applyOps_append, applyOps_map_emit, applyOps_map_emit,
            findTurn_inserts db _ _ aId hfresh hu rfl]
          rfl
        · rw [countErrorEmits_append, countErrorEmits_append, countErrorEmits_append,
            countErrorEmits_append, countErrorEmits_map_emit es2 hev2]
          simp [countErrorEmits, Event.wireType]
      | ok u2 =>
        cases u2
        have h3' : emitOpt (some f) (Event.response content aId)
            = (Except.ok (), [Event.response content aId]) := by
          simp [emitOpt, h3]
        rw [pm_success db sid um uId aId hc api (some f) content _ _ _
          hsid h1' h2 h3'] at h
        cases h

/-- C3 witness: session `"s"` exists, no client, and a callback that raises
on `"streaming"` chunks but accepts everything else; the fallback's
streaming fails, the turn is updated to the error string, and the one
`"error"`-typed envelope is last. -/
theorem error_path_terminal_witness :
    (Store.mk ["s"] []).sessions.contains "s" = true
    ∧ (∀ mm ∈ (Store.mk ["s"] []).messages, mm.id ≠ 1)
    ∧ (0 : Nat) ≠ 1
    ∧ (∀ s2, (fun e => match e with
        | Event.progress _ st => if st == "streaming" then Except.error "ws down"
            else Except.ok ()
        | _ => Except.ok ()) (Event.progress s2 "error") = Except.ok ())
    ∧ (process_message (Store.mk ["s"] []) "s" "hello" 0 1 false
        (fun _ => Except.error "x") (some (fun e => match e with
          | Event.progress _ st => if st == "streaming" then Except.error "ws down"
              else Except.ok ()
          | _ => Except.ok ()))).1 = Except.error "ws down"
    ∧ ((findTurn (applyOps (Store.mk ["s"] [])
          (processMessageTask (Store.mk ["s"] []) "s" "hello" 0 1 false
            (fun _ => Except.error "x") (some (fun e => match e with
              | Event.progress _ st => if st == "streaming" then Except.error "ws down"
                  else Except.ok ()
              | _ => Except.ok ())))) 1).map (fun t => t.content)
        = some ("Error processing message: " ++ "ws down")
      ∧ ∃ t, processMessageTask (Store.mk ["s"] []) "s" "hello" 0 1 false
            (fun _ => Except.error "x") (some (fun e => match e with
              | Event.progress _ st => if st == "streaming" then Except.error "ws down"
                  else Except.ok ()
              | _ => Except.ok ()))
          = t ++ [Op.emit (Event.errorEnvelope "ws down")]
        ∧ countErrorEmits t = 0) := by
  refine ⟨by decide, (by intro mm hmm; cases hmm), (by decide), (fun s2 => rfl), ?herr, ?_⟩
  case herr => rfl
  case _ =>
    exact error_path_terminal (Store.mk ["s"] []) "s" "hello" 0 1 false
      (fun _ => Except.error "x")
      (fun e => match e with
        | Event.progress _ st => if st == "streaming" then Except.error "ws down"
            else Except.ok ()
        | _ => Except.ok ()) "ws down" (by decide) (by intro mm hmm; cases hmm)
      (by decide) (fun s2 => rfl) (by rfl)

/-! ## Claim theorems: fallback classification and provider input -/

/-- C6: fallback classification on the three specified inputs — the Dubai
weather question yields a response containing `"dubai"` and `"weather"`
case-insensitively, `"hello"` yields the greeting-category response, and
`"asdkjf123"` (no keyword match) yields the generic templated
acknowledgment, which contains the original input text. -/
theorem fallback_classification_examples :
    hasSub (lowerStr (fallbackResponse "What's the weather in Dubai?")) "dubai" = true
    ∧ hasSub (lowerStr (fallbackResponse "What's the weather in Dubai?")) "weather" = true
    ∧ fallbackResponse "hello" = helloText
    ∧ fallbackResponse "asdkjf123" = genericText "asdkjf123"
    ∧ hasSub (fallbackResponse "asdkjf123") "asdkjf123" = true := by
  refine ⟨?_, ?_, ?_, ?_, ?_⟩ <;> decide

/-- C7 counterexample: at a concrete store the message list handed to the
provider is not the conversation's turn history (assistant turn excluded)
followed by the new user text — a system-prompt entry is prepended, so the
lists differ. -/
theorem claudeMessages_ne_specProviderList :
    claudeMessages
        (applyOps (Store.mk ["s"] [])
          [Op.insertTurn ⟨0, "s", MessageRole.user, "hi"⟩,
            Op.insertTurn ⟨1, "s", MessageRole.assistant, ""⟩]) "s" "hi"
      ≠ specProviderList
        (applyOps (Store.mk ["s"] [])
          [Op.insertTurn ⟨0, "s", MessageRole.user, "hi"⟩,
            Op.insertTurn ⟨1, "s", MessageRole.assistant, ""⟩]) "s" "hi" 1 := by
  decide

/-- C7 (amended): the message list handed to the provider is a fixed
system-prompt entry, followed by the conversation's turn history
oldest-first with the just-created empty assistant turn excluded, followed
by the new user text as the last element. -/
theorem claudeMessages_spec (db : Store) (sid um : String) (uId aId : Nat)
    (hfresh : ∀ mm ∈ db.messages, mm.id ≠ aId) (hu : uId ≠ aId) :
    claudeMessages (applyOps db [Op.insertTurn ⟨uId, sid, MessageRole.user, um⟩,
        Op.insertTurn ⟨aId, sid, MessageRole.assistant, ""⟩]) sid um
      = ChatMsg.mk "system" systemPromptText
          :: specProviderList
            (applyOps db [Op.insertTurn ⟨uId, sid, MessageRole.user, um⟩,
              Op.insertTurn ⟨aId, sid, MessageRole.assistant, ""⟩]) sid um aId := by
  have hmsgs : (applyOps db [Op.insertTurn ⟨uId, sid, MessageRole.user, um⟩,
      Op.insertTurn ⟨aId, sid, MessageRole.assistant, ""⟩]).messages
      = db.messages ++ [⟨uId, sid, MessageRole.user, um⟩,
          ⟨aId, sid, MessageRole.assistant, ""⟩] := by
    simp [applyOps, applyOp]
  have hcongr : db.messages.filter (fun m => m.session_id == sid && !(m.id == aId))
      = db.messages.filter (fun m => m.session_id == sid) := by
    apply List.filter_congr
    intro m hm
    have h2 := hfresh m hm
    simp [h2]
  have hu2 : ((uId : Nat) == aId) = false := by simpa using hu
  simp [claudeMessages, specProviderList, historyFor, hmsgs, hcongr, hu2,
    List.filter_append, List.map_append, List.dropLast_append_cons, roleStr]

/-- C7 witness: at a concrete store with one prior exchange and fresh turn
ids, the amended equation holds. -/
theorem claudeMessages_spec_witness :
    (∀ mm ∈ (Store.mk ["s"] [⟨7, "s", MessageRole.user, "earlier"⟩]).messages, mm.id ≠ 1)
    ∧ (0 : Nat) ≠ 1
    ∧ claudeMessages
        (applyOps (Store.mk ["s"] [⟨7, "s", MessageRole.user, "earlier"⟩])
          [Op.insertTurn ⟨0, "s", MessageRole.user, "hi"⟩,
            Op.insertTurn ⟨1, "s", MessageRole.assistant, ""⟩]) "s" "hi"
      = ChatMsg.mk "system" systemPromptText
          :: specProviderList
            (applyOps (Store.mk ["s"] [⟨7, "s", MessageRole.user, "earlier"⟩])
              [Op.insertTurn ⟨0, "s", MessageRole.user, "hi"⟩,
                Op.insertTurn ⟨1, "s", MessageRole.assistant, ""⟩]) "s" "hi" 1 :=
  ⟨(by decide), (by decide),
    claudeMessages_spec (Store.mk ["s"] [⟨7, "s", MessageRole.user, "earlier"⟩])
      "s" "hi" 0 1 (by decide) (by decide)⟩

/-- C10: the fallback classifies by the claimed fixed precedence — weather
(with its Dubai sub-case) first, then search, then help, then the greeting
words, then presence of a question mark, else generic — so an input
matching several categories receives exactly the highest-precedence
category's response. -/
theorem fallback_precedence (um : String) :
    fallbackResponse um = categoryResponse (classify um) um := by
  simp only [fallbackResponse, classify]
  split_ifs <;> rfl

end ComputerUse
